import Mathlib

/-!
Verification of the SENTINEL extraction pipeline
(Segmenter → Validator → Precision Filter).

The definitions below are shallow embeddings of
`backend/app/engine/segmenter.py`, `backend/app/engine/validator.py` and
`backend/app/engine/filter.py`.  Machine floats are modelled as `ℚ`
(all constants are short decimals and every comparison made by the code
is far from the representation error of binary64, so the orders agree).
Line indices are `ℕ`.  Python dicts are modelled as structures whose
fields are the keys the code reads or writes; a key that can be absent
is an `Option`.

`TreeSitterManager` (the grammar registry) is repository code that is
not part of the sources given under `src/`; following the spec (§4.2) a
parse result is abstracted as an oracle parameter `ts : String → String →
Bool × ℕ` (accepted?, node count) and `check_balanced_brackets` is
modelled from the spec's words.  Likewise the third-party parsers
`json.loads`, `yaml.safe_load` and `xml.etree.ElementTree.fromstring`
are abstracted as boolean oracles (success / raise).
-/

namespace Sentinel

/-- Python whitespace for `str.strip` / `str.split` (ASCII range). -/
def pyWs (c : Char) : Bool :=
  c = ' ' || c = '\t' || c = '\n' || c = '\r' || c = '\x0b' || c = '\x0c'

/-- Python `str.lstrip()`. -/
def pyLstrip (s : String) : String := ⟨s.data.dropWhile pyWs⟩

/-- Python `str.strip()`. -/
def pyStrip (s : String) : String :=
  ⟨((s.data.dropWhile pyWs).reverse.dropWhile pyWs).reverse⟩

/-- Python regex `\w` (ASCII range). -/
def wordChar (c : Char) : Bool := c.isAlphanum || c = '_'

/-- Python `str.split()` (split on whitespace runs, dropping empties). -/
def pySplit (s : String) : List String :=
  ((s.data.splitOnP pyWs).filter (fun w => ¬ w.isEmpty)).map String.mk

/-- Python `str.lower()` (ASCII range). -/
def pyLower (s : String) : String := ⟨s.data.map Char.toLower⟩

/-- Python `str.startswith(pre)`. -/
def pyStartsWith (s pre : String) : Bool := pre.data.isPrefixOf s.data

/-- Python `text.split('\n')`. -/
def linesOf (text : String) : List String :=
  (text.data.splitOnP (fun c => c = '\n')).map String.mk

/-- `CandidateBlock` from `segmenter.py`. -/
structure CandidateBlock where
  content : String
  start_line : ℕ
  end_line : ℕ
  detection_method : String
  confidence : ℚ
  language_hint : Option String := none
deriving DecidableEq, Repr

/-- `Segmenter.TECHNICAL_CHARS`. -/
def TECHNICAL_CHARS : List Char := "{}[]()<>;:=+-*/%&|!~^#@$".data

/-- `Segmenter.KEYWORDS`. -/
def KEYWORDS : List String :=
  ["def", "class", "function", "var", "let", "const", "import", "export",
   "if", "else", "for", "while", "return", "void", "int", "string",
   "public", "private", "static", "async", "await", "try", "catch"]

/-- `Segmenter._calculate_technical_density`. -/
def techDensity (text : String) : ℚ :=
  if pyStrip text = "" then 0 else
  let tech_count : ℕ := (text.data.filter (fun c => c ∈ TECHNICAL_CHARS)).length
  let words := pySplit text
  let keyword_count : ℕ := (words.filter (fun w => pyLower w ∈ KEYWORDS)).length
  let char_density : ℚ := (tech_count : ℚ) / (max text.length 1 : ℕ)
  let keyword_density : ℚ := (keyword_count : ℚ) / (max words.length 1 : ℕ)
  char_density * (7/10) + keyword_density * (3/10)

/-- Occurrences of `w` as a whole word (regex `\bw\b`) in a character list.
`prev` is the character before the current position (`none` at the start). -/
def countWordAux (w : List Char) : List Char → Option Char → ℕ
  | [], _ => 0
  | c :: rest, prev =>
    (if ((match prev with | none => true | some p => ! wordChar p)
         && w.isPrefixOf (c :: rest)
         && (match (c :: rest).drop w.length with
             | [] => true
             | nxt :: _ => ! wordChar nxt)) then 1 else 0)
    + countWordAux w rest (some c)

/-- Total number of whole-word matches of any word of `ws` (the words in each
regex-alternation of `_calculate_block_complexity` share no prefixes, so
`re.findall` on the alternation counts exactly this). -/
def countWords (ws : List String) (s : String) : ℕ :=
  (ws.map (fun w => countWordAux w.data s.data none)).sum

/-- `Segmenter._calculate_block_complexity`. -/
def blockComplexity (block : String) : ℕ :=
  countWords ["def", "function", "public", "private"] block
  + countWords ["if", "for", "while", "switch"] block
  + countWords ["class", "interface", "struct"] block
  + (if '{' ∈ block.data ∧ '}' ∈ block.data then 1 else 0)
  + (if '(' ∈ block.data ∧ ')' ∈ block.data then 1 else 0)

/-- `re.match(r'^```(\w+)?', line.strip())` succeeds. -/
def isFence (line : String) : Bool := pyStartsWith (pyStrip line) "```"

/-- Capture group 1 of the fence regex (`None` when the optional `\w+`
matches nothing). -/
def fenceHint (line : String) : Option String :=
  let w := ((pyStrip line).data.drop 3).takeWhile wordChar
  if w = [] then none else some ⟨w⟩

/-- Loop of `Segmenter._extract_markdown_blocks`.  The state is `none`
outside a fenced region and `some (block_start, language_hint,
block_lines)` inside one. -/
def extractMarkdownLoop (minL : ℕ) :
    List String → ℕ → Option (ℕ × Option String × List String) → List CandidateBlock
  | [], _, _ => []
  | line :: rest, i, none =>
    if isFence line then
      extractMarkdownLoop minL rest (i + 1) (some (i, fenceHint line, []))
    else
      extractMarkdownLoop minL rest (i + 1) none
  | line :: rest, i, some (bs, hint, bls) =>
    if isFence line then
      (if minL ≤ bls.length then
        [{ content := String.intercalate "\n" bls
           start_line := bs + 1
           end_line := i - 1
           detection_method := "markdown"
           confidence := 0.95
           language_hint := hint }]
       else [])
      ++ extractMarkdownLoop minL rest (i + 1) none
    else
      extractMarkdownLoop minL rest (i + 1) (some (bs, hint, bls ++ [line]))

/-- `Segmenter._extract_markdown_blocks` over the line list. -/
def extractMarkdown (minL : ℕ) (lines : List String) : List CandidateBlock :=
  extractMarkdownLoop minL lines 0 none

/-- Python `len(line) - len(line.lstrip())`. -/
def indentOf (line : String) : ℕ := line.length - (pyLstrip line).length

/-- The line-continues-an-indented-run test of
`_extract_indented_blocks`: non-blank and (indent ≥ 4 or starts with a
tab). -/
def isIndented (line : String) : Bool :=
  pyStrip line ≠ "" ∧ (4 ≤ indentOf line ∨ pyStartsWith line "\t")

/-- Loop of `Segmenter._extract_indented_blocks`.  The state is `none` when
`current_block` is empty and `some (block_start, current_block)` otherwise
(the code sets and clears `block_start` together with `current_block`;
`base_indent` is never read and is omitted). -/
def extractIndentedLoop (minL : ℕ) (marked : Finset ℕ) :
    List String → ℕ → Option (ℕ × List String) → List CandidateBlock
  | [], _, _ => []
  | line :: rest, i, none =>
    if i ∈ marked then
      extractIndentedLoop minL marked rest (i + 1) none
    else if isIndented line then
      extractIndentedLoop minL marked rest (i + 1) (some (i, [line]))
    else
      extractIndentedLoop minL marked rest (i + 1) none
  | line :: rest, i, some (bs, cur) =>
    if i ∈ marked then
      (if cur ≠ [] ∧ minL ≤ cur.length then
        [{ content := String.intercalate "\n" cur
           start_line := bs
           end_line := i - 1
           detection_method := "indentation"
           confidence := 0.75 }]
       else [])
      ++ extractIndentedLoop minL marked rest (i + 1) none
    else if isIndented line then
      extractIndentedLoop minL marked rest (i + 1) (some (bs, cur ++ [line]))
    else
      (if cur ≠ [] ∧ minL ≤ cur.length ∧
          (techDensity (String.intercalate "\n" cur) > 0.15 ∨
           2 ≤ blockComplexity (String.intercalate "\n" cur)) then
        [{ content := String.intercalate "\n" cur
           start_line := bs
           end_line := i - 1
           detection_method := "indentation"
           confidence := 0.85 }]
       else [])
      ++ extractIndentedLoop minL marked rest (i + 1) none

/-- `Segmenter._extract_indented_blocks` over the line list. -/
def extractIndented (minL : ℕ) (marked : Finset ℕ) (lines : List String) : List CandidateBlock :=
  extractIndentedLoop minL marked lines 0 none

/-- The forward-expansion loop of `_extract_density_blocks`
(`while end < len(lines) and end not in marked_lines: if density > thr*0.8 ...`).
The loop advances `end` by one as long as it runs, so `lines.length + 1`
steps of fuel always suffice; fuel is only a structural-termination
device. -/
def densityExpandF (marked : Finset ℕ) (lines : List String) : ℕ → ℕ → ℕ
  | 0, e => e
  | fuel + 1, e =>
    if e < lines.length ∧ e ∉ marked ∧
        techDensity (lines.getD e "") > (0.15 : ℚ) * 0.8 then
      densityExpandF marked lines fuel (e + 1)
    else e

def densityExpand (marked : Finset ℕ) (lines : List String) (e : ℕ) : ℕ :=
  densityExpandF marked lines (lines.length + 1) e

theorem densityExpandF_le (marked : Finset ℕ) (lines : List String) :
    ∀ (fuel e : ℕ), e ≤ densityExpandF marked lines fuel e := by
  intro fuel
  induction fuel with
  | zero => intro e; simp [densityExpandF]
  | succ fuel ih =>
    intro e
    rw [densityExpandF]
    split
    · exact le_trans (Nat.le_succ e) (ih (e + 1))
    · exact le_refl e

theorem densityExpand_le (marked : Finset ℕ) (lines : List String) (e : ℕ) :
    e ≤ densityExpand marked lines e :=
  densityExpandF_le marked lines _ e

/-- Loop of `Segmenter._extract_density_blocks` (window size 5,
threshold 0.15).  The window start `i` strictly increases on every
iteration while the loop only runs for `i < lines.length - 5`, so
`lines.length + 1` steps of fuel always suffice. -/
def extractDensityLoopF (minL : ℕ) (marked : Finset ℕ) (lines : List String) :
    ℕ → ℕ → List CandidateBlock
  | 0, _ => []
  | fuel + 1, i =>
    if i < lines.length - 5 then
      if i ∈ marked then extractDensityLoopF minL marked lines fuel (i + 1)
      else
        let w := String.intercalate "\n" ((lines.drop i).take 5)
        let density := techDensity w
        if density > 0.15 then
          let e := densityExpand marked lines (i + 5)
          (if minL ≤ e - i then
            let block_content := String.intercalate "\n" ((lines.drop i).take (e - i))
            if 3 ≤ blockComplexity block_content ∨ density > 0.30 then
              [{ content := block_content
                 start_line := i
                 end_line := e - 1
                 detection_method := "density"
                 confidence := min 0.60 density }]
            else []
           else [])
          ++ extractDensityLoopF minL marked lines fuel e
        else extractDensityLoopF minL marked lines fuel (i + 1)
    else []

/-- `Segmenter._extract_density_blocks` over the line list. -/
def extractDensity (minL : ℕ) (marked : Finset ℕ) (lines : List String) : List CandidateBlock :=
  extractDensityLoopF minL marked lines (lines.length + 1) 0

/-- The line set `range(start_line, end_line + 1)` of a block. -/
def blockRange (b : CandidateBlock) : Finset ℕ := Finset.Icc b.start_line b.end_line

/-- `marked_lines.update(range(b.start_line, b.end_line + 1))` over a list. -/
def markedOf (blocks : List CandidateBlock) : Finset ℕ :=
  blocks.foldl (fun s b => s ∪ blockRange b) ∅

/-- Comparison key of `sorted(blocks, key=lambda b: b.confidence, reverse=True)`. -/
def confGE (a b : CandidateBlock) : Prop := b.confidence ≤ a.confidence

instance : DecidableRel confGE := fun a b =>
  inferInstanceAs (Decidable (b.confidence ≤ a.confidence))

instance : IsTotal CandidateBlock confGE := ⟨fun a b => (le_total b.confidence a.confidence)⟩

instance : IsTrans CandidateBlock confGE := ⟨fun _ _ _ h h' => le_trans h' h⟩

/-- Comparison key of `sorted(kept_blocks, key=lambda b: b.start_line)`. -/
def startLE (a b : CandidateBlock) : Prop := a.start_line ≤ b.start_line

instance : DecidableRel startLE := fun a b =>
  inferInstanceAs (Decidable (a.start_line ≤ b.start_line))

instance : IsTotal CandidateBlock startLE := ⟨fun a b => le_total a.start_line b.start_line⟩

instance : IsTrans CandidateBlock startLE := ⟨fun _ _ _ h h' => le_trans h h'⟩

/-- The greedy keep loop of `_deduplicate_blocks`: keep a block iff its
line set does not intersect the union of the already-kept ones. -/
def dedupKeep : List CandidateBlock → Finset ℕ → List CandidateBlock
  | [], _ => []
  | b :: bs, used =>
    if blockRange b ∩ used = ∅ then
      b :: dedupKeep bs (used ∪ blockRange b)
    else
      dedupKeep bs used

/-- `Segmenter._deduplicate_blocks` (Python `sorted` is a stable sort, as is
`List.insertionSort`). -/
def deduplicateBlocks (blocks : List CandidateBlock) : List CandidateBlock :=
  if blocks = [] then []
  else List.insertionSort startLE (dedupKeep (List.insertionSort confGE blocks) ∅)

/-- `Segmenter.segment` over a pre-split line list. -/
def segmentLines (minL : ℕ) (lines : List String) : List CandidateBlock :=
  let markdown_blocks := extractMarkdown minL lines
  let marked₁ := markedOf markdown_blocks
  let indent_blocks := extractIndented minL marked₁ lines
  let marked₂ := marked₁ ∪ markedOf indent_blocks
  let density_blocks := extractDensity minL marked₂ lines
  deduplicateBlocks (markdown_blocks ++ indent_blocks ++ density_blocks)

/-- `Segmenter.segment` (the Python code splits `text` on `'\n'` in every
strategy). -/
def segment (minL : ℕ) (text : String) : List CandidateBlock :=
  segmentLines minL (linesOf text)

/-! ### Properties of the deduplication step -/

theorem dedupKeep_subset :
    ∀ (l : List CandidateBlock) (used : Finset ℕ) (b : CandidateBlock),
      b ∈ dedupKeep l used → b ∈ l := by
  intro l
  induction l with
  | nil => intro used b h; exact absurd h (by simp [dedupKeep])
  | cons a l ih =>
    intro used b h
    rw [dedupKeep] at h
    split at h
    · rcases List.mem_cons.mp h with rfl | h
      · exact List.mem_cons_self _ _
      · exact List.mem_cons_of_mem a (ih _ b h)
    · exact List.mem_cons_of_mem a (ih _ b h)

theorem dedupKeep_disjoint_used :
    ∀ (l : List CandidateBlock) (used : Finset ℕ) (b : CandidateBlock),
      b ∈ dedupKeep l used → Disjoint (blockRange b) used := by
  intro l
  induction l with
  | nil => intro used b h; exact absurd h (by simp [dedupKeep])
  | cons a l ih =>
    intro used b h
    rw [dedupKeep] at h
    split at h
    · next hc =>
      rcases List.mem_cons.mp h with rfl | h
      · exact Finset.disjoint_iff_inter_eq_empty.mpr hc
      · exact (Finset.disjoint_union_right.mp (ih _ b h)).1
    · exact ih _ b h

theorem dedupKeep_pairwise :
    ∀ (l : List CandidateBlock) (used : Finset ℕ),
      (dedupKeep l used).Pairwise (fun a b => Disjoint (blockRange a) (blockRange b)) := by
  intro l
  induction l with
  | nil => intro used; simp [dedupKeep]
  | cons a l ih =>
    intro used
    rw [dedupKeep]
    split
    · refine List.pairwise_cons.mpr ⟨?_, ih _⟩
      intro b hb
      exact ((Finset.disjoint_union_right.mp
        (dedupKeep_disjoint_used l (used ∪ blockRange a) b hb)).2).symm
    · exact ih _

theorem mem_deduplicateBlocks {b : CandidateBlock} {l : List CandidateBlock}
    (h : b ∈ deduplicateBlocks l) : b ∈ l := by
  unfold deduplicateBlocks at h
  split at h
  · exact absurd h (by simp)
  · have h1 : b ∈ dedupKeep (List.insertionSort confGE l) ∅ :=
      (List.perm_insertionSort startLE _).mem_iff.mp h
    exact (List.perm_insertionSort confGE l).mem_iff.mp (dedupKeep_subset _ _ b h1)

theorem deduplicateBlocks_sorted (l : List CandidateBlock) :
    List.Sorted startLE (deduplicateBlocks l) := by
  unfold deduplicateBlocks
  split
  · simp
  · exact List.sorted_insertionSort startLE _

theorem deduplicateBlocks_pairwise_disjoint (l : List CandidateBlock) :
    (deduplicateBlocks l).Pairwise (fun a b => Disjoint (blockRange a) (blockRange b)) := by
  unfold deduplicateBlocks
  split
  · simp
  · exact (List.Perm.pairwise_iff (fun h => h.symm)
      (List.perm_insertionSort startLE _)).mpr (dedupKeep_pairwise _ ∅)

/-! ### Loop invariants of the three strategies -/

theorem extractMarkdownLoop_sound (minL : ℕ) (lines : List String) :
    ∀ (rest : List String) (i : ℕ) (st : Option (ℕ × Option String × List String)),
      rest = lines.drop i →
      (∀ bs hint bls, st = some (bs, hint, bls) →
        bs + 1 + bls.length = i ∧ lines.drop (bs + 1) = bls ++ rest) →
      ∀ b ∈ extractMarkdownLoop minL rest i st,
        b.detection_method = "markdown" ∧ b.confidence = 0.95 ∧
        b.content = String.intercalate "\n"
          ((lines.drop b.start_line).take (b.end_line + 1 - b.start_line)) := by
  intro rest
  induction rest with
  | nil => intro i st _ _ b hb; exact absurd hb (by simp [extractMarkdownLoop])
  | cons line rest ih =>
    intro i st hrest hst b hb
    have hdrop : lines.drop (i + 1) = rest := by
      rw [← List.tail_drop, ← hrest]; rfl
    rcases st with _ | ⟨bs, hint, bls⟩
    · rw [extractMarkdownLoop] at hb
      split at hb
      · refine ih (i + 1) _ hdrop.symm ?_ b hb
        intro bs hint bls heq
        simp only [Option.some.injEq, Prod.mk.injEq] at heq
        obtain ⟨rfl, -, rfl⟩ := heq
        exact ⟨by simp, by simpa using hdrop⟩
      · exact ih (i + 1) none hdrop.symm (by intro bs hint bls heq; simp at heq) b hb
    · obtain ⟨hlen, hdropbs⟩ := hst bs hint bls rfl
      rw [extractMarkdownLoop] at hb
      split at hb
      · rcases List.mem_append.mp hb with hb | hb
        · split at hb
          · rcases List.mem_singleton.mp hb with rfl
            refine ⟨rfl, rfl, ?_⟩
            show String.intercalate "\n" bls =
              String.intercalate "\n" ((lines.drop (bs + 1)).take ((i - 1) + 1 - (bs + 1)))
            have hlen' : (i - 1) + 1 - (bs + 1) = bls.length := by omega
            rw [hlen', hdropbs, List.take_left]
          · exact absurd hb (by simp)
        · exact ih (i + 1) none hdrop.symm (by intro bs' hint' bls' heq; simp at heq) b hb
      · refine ih (i + 1) _ hdrop.symm ?_ b hb
        intro bs' hint' bls' heq
        simp only [Option.some.injEq, Prod.mk.injEq] at heq
        obtain ⟨rfl, -, rfl⟩ := heq
        refine ⟨by simp; omega, ?_⟩
        rw [hdropbs]
        simp

theorem extractIndentedLoop_sound (minL : ℕ) (marked : Finset ℕ) (lines : List String) :
    ∀ (rest : List String) (i : ℕ) (st : Option (ℕ × List String)),
      rest = lines.drop i →
      (∀ bs cur, st = some (bs, cur) →
        bs + cur.length = i ∧ lines.drop bs = cur ++ rest ∧ cur ≠ []) →
      ∀ b ∈ extractIndentedLoop minL marked rest i st,
        b.detection_method = "indentation" ∧
        b.content = String.intercalate "\n"
          ((lines.drop b.start_line).take (b.end_line + 1 - b.start_line)) ∧
        (b.confidence = 0.75 ∨
          (b.confidence = 0.85 ∧
            (techDensity b.content > 0.15 ∨ 2 ≤ blockComplexity b.content))) := by
  intro rest
  induction rest with
  | nil => intro i st _ _ b hb; exact absurd hb (by simp [extractIndentedLoop])
  | cons line rest ih =>
    intro i st hrest hst b hb
    have hdrop : lines.drop (i + 1) = rest := by
      rw [← List.tail_drop, ← hrest]; rfl
    have hnone : ∀ bs cur, (none : Option (ℕ × List String)) = some (bs, cur) →
        bs + cur.length = i + 1 ∧ lines.drop bs = cur ++ rest ∧ cur ≠ [] := by
      intro bs cur heq; simp at heq
    rcases st with _ | ⟨bs, cur⟩
    · rw [extractIndentedLoop] at hb
      split at hb
      · exact ih (i + 1) none hdrop.symm hnone b hb
      · split at hb
        · refine ih (i + 1) _ hdrop.symm ?_ b hb
          intro bs cur heq
          simp only [Option.some.injEq, Prod.mk.injEq] at heq
          obtain ⟨rfl, rfl⟩ := heq
          refine ⟨by simp, ?_, by simp⟩
          simp [← hrest]
        · exact ih (i + 1) none hdrop.symm hnone b hb
    · obtain ⟨hlen, hdropbs, hne⟩ := hst bs cur rfl
      have hc : cur.length ≠ 0 := by
        intro h0; exact hne (List.length_eq_zero.mp h0)
      rw [extractIndentedLoop] at hb
      split at hb
      · rcases List.mem_append.mp hb with hb | hb
        · split at hb
          · rcases List.mem_singleton.mp hb with rfl
            refine ⟨rfl, ?_, Or.inl rfl⟩
            show String.intercalate "\n" cur =
              String.intercalate "\n" ((lines.drop bs).take ((i - 1) + 1 - bs))
            have hlen' : (i - 1) + 1 - bs = cur.length := by omega
            rw [hlen', hdropbs, List.take_left]
          · exact absurd hb (by simp)
        · exact ih (i + 1) none hdrop.symm hnone b hb
      · split at hb
        · refine ih (i + 1) _ hdrop.symm ?_ b hb
          intro bs' cur' heq
          simp only [Option.some.injEq, Prod.mk.injEq] at heq
          obtain ⟨rfl, rfl⟩ := heq
          refine ⟨by simp; omega, ?_, by simp⟩
          rw [hdropbs]
          simp
        · rcases List.mem_append.mp hb with hb | hb
          · split at hb
            · next hcond =>
              rcases List.mem_singleton.mp hb with rfl
              refine ⟨rfl, ?_, Or.inr ⟨rfl, ?_⟩⟩
              · show String.intercalate "\n" cur =
                  String.intercalate "\n" ((lines.drop bs).take ((i - 1) + 1 - bs))
                have hlen' : (i - 1) + 1 - bs = cur.length := by omega
                rw [hlen', hdropbs, List.take_left]
              · exact hcond.2.2
            · exact absurd hb (by simp)
          · exact ih (i + 1) none hdrop.symm hnone b hb

theorem extractDensityLoopF_sound (minL : ℕ) (marked : Finset ℕ) (lines : List String) :
    ∀ (fuel i : ℕ), ∀ b ∈ extractDensityLoopF minL marked lines fuel i,
      b.detection_method = "density" ∧
      b.start_line + 5 < lines.length ∧
      b.content = String.intercalate "\n"
        ((lines.drop b.start_line).take (b.end_line + 1 - b.start_line)) := by
  intro fuel
  induction fuel with
  | zero => intro i b hb; exact absurd hb (by simp [extractDensityLoopF])
  | succ fuel ih =>
    intro i b hb
    rw [extractDensityLoopF] at hb
    split at hb
    · next h5 =>
      split at hb
      · exact ih (i + 1) b hb
      · simp only at hb
        split at hb
        · rcases List.mem_append.mp hb with hb | hb
          · have he5 : i + 5 ≤ densityExpand marked lines (i + 5) :=
              densityExpand_le marked lines (i + 5)
            split at hb
            · split at hb
              · rcases List.mem_singleton.mp hb with rfl
                refine ⟨rfl, by simp only []; omega, ?_⟩
                show String.intercalate "\n"
                    ((lines.drop i).take (densityExpand marked lines (i + 5) - i)) =
                  String.intercalate "\n"
                    ((lines.drop i).take
                      ((densityExpand marked lines (i + 5) - 1) + 1 - i))
                have heq : (densityExpand marked lines (i + 5) - 1) + 1 - i =
                    densityExpand marked lines (i + 5) - i := by omega
                rw [heq]
              · exact absurd hb (by simp)
            · exact absurd hb (by simp)
          · exact ih _ b hb
        · exact ih (i + 1) b hb
    · exact absurd hb (by simp)

/-- Every block of `segmentLines` comes from one of the three strategies. -/
theorem mem_segmentLines {minL : ℕ} {lines : List String} {b : CandidateBlock}
    (hb : b ∈ segmentLines minL lines) :
    b ∈ extractMarkdown minL lines ∨
    b ∈ extractIndented minL (markedOf (extractMarkdown minL lines)) lines ∨
    b ∈ extractDensity minL
        (markedOf (extractMarkdown minL lines) ∪
         markedOf (extractIndented minL (markedOf (extractMarkdown minL lines)) lines))
        lines := by
  simp only [segmentLines] at hb
  have := mem_deduplicateBlocks hb
  simpa using this

theorem extractMarkdown_sound {minL : ℕ} {lines : List String} {b : CandidateBlock}
    (hb : b ∈ extractMarkdown minL lines) :
    b.detection_method = "markdown" ∧ b.confidence = 0.95 ∧
    b.content = String.intercalate "\n"
      ((lines.drop b.start_line).take (b.end_line + 1 - b.start_line)) :=
  extractMarkdownLoop_sound minL lines lines 0 none rfl
    (by intro bs hint bls heq; simp at heq) b hb

theorem extractIndented_sound {minL : ℕ} {marked : Finset ℕ} {lines : List String}
    {b : CandidateBlock} (hb : b ∈ extractIndented minL marked lines) :
    b.detection_method = "indentation" ∧
    b.content = String.intercalate "\n"
      ((lines.drop b.start_line).take (b.end_line + 1 - b.start_line)) ∧
    (b.confidence = 0.75 ∨
      (b.confidence = 0.85 ∧
        (techDensity b.content > 0.15 ∨ 2 ≤ blockComplexity b.content))) :=
  extractIndentedLoop_sound minL marked lines lines 0 none rfl
    (by intro bs cur heq; simp at heq) b hb

/-! ### A small regular-expression engine

The validator and filter use a handful of fixed `re` patterns.  They are
transcribed into the small syntax below and matched by a backtracking
matcher with Python semantics: alternatives are tried left to right and
repetitions are greedy.  `re.IGNORECASE` is modelled by lowering the
subject string and writing the pattern's literals in lower case (all
character classes used are closed under case).  `re.MULTILINE` only
affects `^`/`$`, which none of the patterns contain.  The fuel argument
only bounds the recursion depth of one match attempt (each recursive
call either steps into a subpattern or consumes a character, so
`2·|s| + 100` is always enough for these small patterns); it is a
structural-termination device, not part of the semantics. -/

inductive RE where
  | eps : RE
  | str : List Char → RE
  | cls : (Char → Bool) → RE
  | seq : RE → RE → RE
  | alt : RE → RE → RE
  | starC : (Char → Bool) → RE
  | plusC : (Char → Bool) → RE
  | reps : (Char → Bool) → ℕ → ℕ → RE
  | wordB : RE
  | endA : RE

/-- Python regex `\b`: exactly one side of the position is a word char. -/
def atWordBoundary (prev : Option Char) (s : List Char) : Bool :=
  (match prev with | none => false | some p => wordChar p)
    != (match s with | [] => false | a :: _ => wordChar a)

/-- Backtracking matcher in continuation style.  On success the
continuation receives the character preceding the rest and the rest of
the subject; the first success in backtracking order is returned, which
is exactly Python's leftmost/greedy match. -/
def matchRE : ℕ → RE → Option Char → List Char →
    (Option Char → List Char → Option (Option Char × List Char)) →
    Option (Option Char × List Char)
  | 0, _, _, _, _ => none
  | _ + 1, RE.eps, prev, s, k => k prev s
  | _ + 1, RE.str [], prev, s, k => k prev s
  | fuel + 1, RE.str (c :: cs), _, s, k =>
    match s with
    | [] => none
    | a :: s' => if a = c then matchRE fuel (RE.str cs) (some a) s' k else none
  | _ + 1, RE.cls p, _, s, k =>
    match s with
    | [] => none
    | a :: s' => if p a then k (some a) s' else none
  | fuel + 1, RE.seq r1 r2, prev, s, k =>
    matchRE fuel r1 prev s (fun prev' s' => matchRE fuel r2 prev' s' k)
  | fuel + 1, RE.alt r1 r2, prev, s, k =>
    (matchRE fuel r1 prev s k).orElse (fun _ => matchRE fuel r2 prev s k)
  | fuel + 1, RE.starC p, prev, s, k =>
    (match s with
     | a :: s' => if p a then matchRE fuel (RE.starC p) (some a) s' k else none
     | [] => none).orElse (fun _ => k prev s)
  | fuel + 1, RE.plusC p, _, s, k =>
    match s with
    | [] => none
    | a :: s' => if p a then matchRE fuel (RE.starC p) (some a) s' k else none
  | fuel + 1, RE.reps p lo hi, prev, s, k =>
    (if hi = 0 then none
     else match s with
       | [] => none
       | a :: s' =>
         if p a then matchRE fuel (RE.reps p (lo - 1) (hi - 1)) (some a) s' k else none).orElse
      (fun _ => if lo = 0 then k prev s else none)
  | _ + 1, RE.wordB, prev, s, k =>
    if atWordBoundary prev s then k prev s else none
  | _ + 1, RE.endA, prev, s, k =>
    match s with
    | [] => k prev s
    | _ :: _ => none

/-- Match attempt at one position, returning the state after the match. -/
def matchAt (fuel : ℕ) (re : RE) (prev : Option Char) (s : List Char) :
    Option (Option Char × List Char) :=
  matchRE fuel re prev s (fun p r => some (p, r))

def searchAux (fuel : ℕ) (re : RE) : Option Char → List Char → Bool
  | prev, s =>
    (matchAt fuel re prev s).isSome ||
      match s with
      | [] => false
      | a :: s' => searchAux fuel re (some a) s'

/-- Python `re.search(pattern, s)` converted to a boolean. -/
def reSearch (re : RE) (s : String) : Bool :=
  searchAux (2 * s.length + 100) re none s.data

/-- The scan of Python `len(re.findall(pattern, s))`: find the leftmost
match, count it, and continue after its end (all patterns used can only
produce non-empty matches; if a match were empty the scan advances by
one character, which is also Python's behaviour). -/
def scanCountAux (fuelM : ℕ) (re : RE) : ℕ → Option Char → List Char → ℕ
  | 0, _, _ => 0
  | fuelS + 1, prev, s =>
    match matchAt fuelM re prev s with
    | some (p, r) =>
      if r.length < s.length then 1 + scanCountAux fuelM re fuelS p r
      else
        match s with
        | [] => 1
        | a :: s' => 1 + scanCountAux fuelM re fuelS (some a) s'
    | none =>
      match s with
      | [] => 0
      | a :: s' => scanCountAux fuelM re fuelS (some a) s'

/-- Python `len(re.findall(pattern, s))`. -/
def reCount (re : RE) (s : String) : ℕ :=
  scanCountAux (2 * s.length + 100) re (s.length + 1) none s.data

def reStr (s : String) : RE := RE.str s.data

def digitChar (c : Char) : Bool := c.isDigit

/-- `(?:\d{1,3}\.){3}\d{1,3}` surrounded by `\b`: the IPv4 pattern shared by
the Cisco bank and the log bank. -/
def ipv4RE : RE :=
  RE.seq RE.wordB (RE.seq (RE.reps digitChar 1 3) (RE.seq (reStr ".")
    (RE.seq (RE.reps digitChar 1 3) (RE.seq (reStr ".")
      (RE.seq (RE.reps digitChar 1 3) (RE.seq (reStr ".")
        (RE.seq (RE.reps digitChar 1 3) RE.wordB)))))))

/-- `Validator.CISCO_PATTERNS`, in dict order, literals lowered for
`re.IGNORECASE`. -/
def CISCO_PATTERNS : List RE :=
  [RE.seq (reStr "access-list") (RE.seq (RE.plusC pyWs) (RE.seq (RE.plusC digitChar)
     (RE.seq (RE.plusC pyWs) (RE.alt (reStr "permit") (reStr "deny"))))),
   RE.seq (reStr "vlan") (RE.seq (RE.plusC pyWs) (RE.plusC digitChar)),
   RE.seq (reStr "interface") (RE.seq (RE.plusC pyWs) (RE.plusC wordChar)),
   ipv4RE,
   RE.seq (reStr "router") (RE.seq (RE.plusC pyWs)
     (RE.alt (reStr "bgp") (RE.alt (reStr "ospf") (reStr "eigrp"))))]

/-- `Validator.NGINX_PATTERNS`, in dict order (matched case-sensitively). -/
def NGINX_PATTERNS : List RE :=
  [RE.seq (reStr "server") (RE.seq (RE.starC pyWs) (reStr "\x7b")),
   RE.seq (reStr "location") (RE.seq (RE.plusC pyWs)
     (RE.seq (RE.starC (fun c => c = '~' || c = '*' || c = '^'))
       (RE.seq (RE.starC pyWs) (RE.seq (RE.plusC (fun c => wordChar c || c = '/'))
         (RE.seq (RE.starC pyWs) (reStr "\x7b")))))),
   RE.seq (reStr "listen") (RE.seq (RE.plusC pyWs) (RE.plusC digitChar)),
   RE.seq (reStr "proxy_pass") (RE.seq (RE.plusC pyWs)
     (RE.seq (reStr "http") (RE.seq (RE.alt (reStr "s") RE.eps) (reStr "://"))))]

/-- `\d{4}-\d{2}-\d{2}[T\s]\d{2}:\d{2}:\d{2}` (the `T` lowered for
`re.IGNORECASE`). -/
def logTimestampRE : RE :=
  RE.seq (RE.reps digitChar 4 4) (RE.seq (reStr "-")
    (RE.seq (RE.reps digitChar 2 2) (RE.seq (reStr "-")
      (RE.seq (RE.reps digitChar 2 2)
        (RE.seq (RE.cls (fun c => c = 't' || pyWs c))
          (RE.seq (RE.reps digitChar 2 2) (RE.seq (reStr ":")
            (RE.seq (RE.reps digitChar 2 2) (RE.seq (reStr ":")
              (RE.reps digitChar 2 2))))))))))

/-- `\b(DEBUG|INFO|WARN|WARNING|ERROR|ERR|CRITICAL|FATAL)\b`, alternatives in
source order, literals lowered for `re.IGNORECASE` (`re.findall` returns the
group's matches, which has the same count). -/
def logSeverityRE : RE :=
  RE.seq RE.wordB (RE.seq
    (RE.alt (reStr "debug") (RE.alt (reStr "info") (RE.alt (reStr "warn")
      (RE.alt (reStr "warning") (RE.alt (reStr "error") (RE.alt (reStr "err")
        (RE.alt (reStr "critical") (reStr "fatal"))))))))
    RE.wordB)

/-! ### Validator (`validator.py`) -/

/-- Number of Cisco bank patterns with an `re.search` hit
(`re.MULTILINE | re.IGNORECASE`). -/
def ciscoMatchCount (content : String) : ℕ :=
  (CISCO_PATTERNS.filter (fun p => reSearch p (pyLower content))).length

/-- Number of Nginx bank patterns with an `re.search` hit (`re.MULTILINE`). -/
def nginxMatchCount (content : String) : ℕ :=
  (NGINX_PATTERNS.filter (fun p => reSearch p content)).length

/-- `re.findall` count of the log timestamp pattern
(`re.MULTILINE | re.IGNORECASE`). -/
def logTimestampCount (content : String) : ℕ :=
  reCount logTimestampRE (pyLower content)

/-- `re.findall` count of the log severity pattern
(`re.MULTILINE | re.IGNORECASE`). -/
def logSeverityCount (content : String) : ℕ :=
  reCount logSeverityRE (pyLower content)

/-- Modelled from the spec: `TreeSitterManager.check_balanced_brackets` is
repository code absent from `src/`.  Per §4.2 it is a stack-based scan over
the entire string treating `()`, `[]`, `{}` as matched pairs, returning
false on mismatch or unclosed groups; quoted substrings are not excluded. -/
def checkBalancedAux : List Char → List Char → Bool
  | [], stack => stack.isEmpty
  | c :: rest, stack =>
    if c = '(' || c = '[' || c = '{' then checkBalancedAux rest (c :: stack)
    else if c = ')' || c = ']' || c = '}' then
      match stack with
      | [] => false
      | o :: stack' =>
        if (o = '(' ∧ c = ')') ∨ (o = '[' ∧ c = ']') ∨ (o = '{' ∧ c = '}') then
          checkBalancedAux rest stack'
        else false
    else checkBalancedAux rest stack

def check_balanced_brackets (code : String) : Bool := checkBalancedAux code.data []

/-- The `lang_map` normalisation of `_validate_programming_language`
(applied to the lower-cased name). -/
def langMap (l : String) : String :=
  let l := pyLower l
  if l = "py" then "python" else if l = "js" then "javascript"
  else if l = "ts" then "typescript" else if l = "c++" then "cpp"
  else if l = "cs" then "c_sharp" else if l = "rb" then "ruby"
  else if l = "sh" then "bash" else if l = "zsh" then "bash"
  else if l = "kt" then "kotlin" else l

/-- The successful payload of `_validate_programming_language`
(the keys `language`, `confidence_score`, `ast_nodes` merged into the
result; `valid` is represented by `Option`). -/
structure LangResult where
  language : String
  confidence_score : ℚ
  ast_nodes : ℕ
deriving DecidableEq, Repr

/-- `Validator._validate_programming_language`.  The tree-sitter call
`self.ts_manager.validate_syntax(code, language)` is the oracle
`ts : String → String → Bool × ℕ` (valid flag, node count). -/
def validateProgrammingLanguage (ts : String → String → Bool × ℕ)
    (code language : String) : Option LangResult :=
  let language := langMap language
  let ts_result := ts code language
  if ts_result.1 then
    let node_count := ts_result.2
    let base_confidence : ℚ := 0.95
    let complexity_bonus : ℚ := min 0.04 ((node_count : ℚ) / 1000)
    let confidence := min 0.99 (base_confidence + complexity_bonus)
    let confidence := if check_balanced_brackets code then confidence else confidence - 0.10
    some ⟨language, confidence, node_count⟩
  else none

/-- `_detect_programming_language`'s candidate order. -/
def candidateLangs : List String :=
  ["python", "javascript", "java", "c", "cpp", "go", "rust", "c_sharp",
   "php", "kotlin", "bash", "ruby"]

/-- The running `best_result` dict of `_detect_programming_language`
(`ast_nodes` can be absent when the shebang override fires on a failed
parse). -/
structure DetectBest where
  valid : Bool
  language : Option String
  confidence_score : ℚ
  ast_nodes : Option ℕ
deriving DecidableEq, Repr

/-- `Validator._detect_programming_language`. -/
def detectProgrammingLanguage (ts : String → String → Bool × ℕ) (code : String) :
    DetectBest :=
  candidateLangs.foldl
    (fun best lang =>
      let r0 := validateProgrammingLanguage ts code lang
      let result : DetectBest :=
        match r0 with
        | some lr => ⟨true, some lr.language, lr.confidence_score, some lr.ast_nodes⟩
        | none => ⟨false, none, 0, none⟩
      let result :=
        if lang = "bash" ∧ pyStartsWith code "#!" then
          { result with valid := true, language := some "bash", confidence_score := 1 }
        else result
      if result.valid ∧ result.confidence_score > best.confidence_score then result else best)
    ⟨false, none, 0, none⟩

/-- The successful payload of `_validate_structured_data`. -/
structure StructResult where
  language : String
  confidence_score : ℚ
  validation_method : String
deriving DecidableEq, Repr

/-- `Validator._validate_structured_data`.  The third-party parse successes
(`json.loads`, `yaml.safe_load`, `ET.fromstring`) are the boolean oracles
`jsonOk`, `yamlOk`, `xmlOk` (true = no exception raised). -/
def validateStructuredData (jsonOk yamlOk xmlOk : String → Bool) (content : String) :
    Option StructResult :=
  if jsonOk content then some ⟨"json", 0.98, "schema"⟩
  else if yamlOk content then some ⟨"yaml", 0.97, "schema"⟩
  else if xmlOk content then some ⟨"xml", 0.96, "schema"⟩
  else none

/-- The successful payload of `_validate_config` (the extra
`matched_patterns` key included). -/
structure ConfigResult where
  language : String
  confidence_score : ℚ
  validation_method : String
  matched_patterns : ℕ
deriving DecidableEq, Repr

/-- `Validator._validate_config`. -/
def validateConfig (content : String) : Option ConfigResult :=
  let cisco_matches := ciscoMatchCount content
  if 2 ≤ cisco_matches then
    some ⟨"cisco_ios", min 0.85 (0.70 + (cisco_matches : ℚ) * 0.05),
          "pattern_matching", cisco_matches⟩
  else
    let nginx_matches := nginxMatchCount content
    if 2 ≤ nginx_matches then
      some ⟨"nginx", min 0.85 (0.70 + (nginx_matches : ℚ) * 0.05),
            "pattern_matching", nginx_matches⟩
    else none

/-- The successful payload of `_validate_log` (the `log_patterns`
diagnostic key is dropped). -/
structure LogResult where
  language : String
  confidence_score : ℚ
  validation_method : String
deriving DecidableEq, Repr

/-- `Validator._validate_log` (the `ip_address` count is computed by the
code but not consulted by the validity test or the confidence). -/
def validateLog (content : String) : Option LogResult :=
  let tsc := logTimestampCount content
  let sev := logSeverityCount content
  if 0 < tsc ∧ 0 < sev then
    let lines : ℕ := content.data.count '\n' + 1
    let density : ℚ := ((tsc + sev : ℕ) : ℚ) / ((lines : ℚ) * 2)
    some ⟨"log", min 0.90 (0.60 + density * 0.30), "pattern_matching"⟩
  else none

/-- The extension → language dict of `validate_block`. -/
def extMap (ext : String) : Option String :=
  if ext = "py" then some "python" else if ext = "js" then some "javascript"
  else if ext = "jsx" then some "javascript" else if ext = "ts" then some "typescript"
  else if ext = "tsx" then some "typescript" else if ext = "java" then some "java"
  else if ext = "c" then some "c" else if ext = "cpp" then some "cpp"
  else if ext = "cc" then some "cpp" else if ext = "go" then some "go"
  else if ext = "rs" then some "rust" else if ext = "php" then some "php"
  else if ext = "rb" then some "ruby" else if ext = "cs" then some "c_sharp"
  else if ext = "sh" then some "bash" else if ext = "bash" then some "bash"
  else if ext = "zsh" then some "bash" else if ext = "kt" then some "kotlin"
  else if ext = "json" then some "json" else if ext = "xml" then some "xml"
  else if ext = "yaml" then some "yaml" else if ext = "yml" then some "yaml"
  else if ext = "md" then some "markdown" else none

/-- The `extension_hint` computation of `validate_block`
(`filename.split('.')[-1].lower() if '.' in filename else ''`). -/
def extensionHint (filename : Option String) : Option String :=
  match filename with
  | none => none
  | some f =>
    let ext :=
      if '.' ∈ f.data then
        pyLower ((((f.data.splitOnP (fun c => c = '.')).map String.mk).getLastD ""))
      else ""
    extMap ext

/-- The result dict of `Validator.validate_block` (`None`-valued keys are
`none`; the optional diagnostic keys `matched_patterns` / `log_patterns`
are dropped). -/
structure ValidationResult where
  content : String
  start_line : ℕ
  end_line : ℕ
  detection_method : String
  block_type : Option String
  language : Option String
  confidence_score : ℚ
  validation_method : Option String
  valid : Bool
  ast_nodes : Option ℕ
deriving DecidableEq, Repr

/-- The initial result dict of `validate_block`. -/
def vbInit (block : CandidateBlock) : ValidationResult :=
  { content := block.content, start_line := block.start_line, end_line := block.end_line,
    detection_method := block.detection_method, block_type := none, language := none,
    confidence_score := 0, validation_method := none, valid := false, ast_nodes := none }

/-- Step 1 of `validate_block`: explicit language hint from the fence. -/
def vbStep1 (ts : String → String → Bool × ℕ) (block : CandidateBlock) :
    Option ValidationResult :=
  match block.language_hint with
  | some h =>
    match validateProgrammingLanguage ts block.content h with
    | some lr =>
      some { vbInit block with
               valid := true, language := some lr.language,
               confidence_score := lr.confidence_score, ast_nodes := some lr.ast_nodes,
               block_type := some "code", validation_method := some "tree-sitter-hint" }
    | none => none
  | none => none

/-- Step 2 of `validate_block`: the file-extension hint.  A structured
extension accepts only when the detected language equals the extension
(confidence boosted by 0.1); any other mapped language is treated as a
code language (confidence boosted by 0.15, method `tree-sitter-context`). -/
def vbStep2 (ts : String → String → Bool × ℕ) (jsonOk yamlOk xmlOk : String → Bool)
    (block : CandidateBlock) (extension_hint : Option String) : Option ValidationResult :=
  match extension_hint with
  | some e =>
    if e = "json" ∨ e = "xml" ∨ e = "yaml" then
      match validateStructuredData jsonOk yamlOk xmlOk block.content with
      | some sr =>
        if sr.language = e then
          some { vbInit block with
                   valid := true, language := some sr.language,
                   validation_method := some sr.validation_method,
                   block_type := some "structured",
                   confidence_score := min 0.99 (sr.confidence_score + 0.1) }
        else none
      | none => none
    else
      match validateProgrammingLanguage ts block.content e with
      | some lr =>
        some { vbInit block with
                 valid := true, language := some lr.language,
                 ast_nodes := some lr.ast_nodes, block_type := some "code",
                 validation_method := some "tree-sitter-context",
                 confidence_score := min 0.99 (lr.confidence_score + 0.15) }
      | none => none
  | none => none

/-- `Validator.validate_block`: the step cascade
hint → extension → auto-detect → structured → config → log, with the
unable-to-validate fallback halving the segmenter confidence. -/
def validateBlock (ts : String → String → Bool × ℕ) (jsonOk yamlOk xmlOk : String → Bool)
    (block : CandidateBlock) (filename : Option String) : ValidationResult :=
  match vbStep1 ts block with
  | some r => r
  | none =>
    match vbStep2 ts jsonOk yamlOk xmlOk block (extensionHint filename) with
    | some r => r
    | none =>
      let d := detectProgrammingLanguage ts block.content
      if d.valid then
        { vbInit block with
            valid := true, language := d.language,
            confidence_score := d.confidence_score, ast_nodes := d.ast_nodes,
            block_type := some "code", validation_method := some "tree-sitter-auto" }
      else
        match validateStructuredData jsonOk yamlOk xmlOk block.content with
        | some sr =>
          { vbInit block with
              valid := true, language := some sr.language,
              confidence_score := sr.confidence_score,
              validation_method := some sr.validation_method,
              block_type := some "structured" }
        | none =>
          match validateConfig block.content with
          | some cr =>
            { vbInit block with
                valid := true, language := some cr.language,
                confidence_score := cr.confidence_score,
                validation_method := some cr.validation_method,
                block_type := some "config" }
          | none =>
            match validateLog block.content with
            | some lr =>
              { vbInit block with
                  valid := true, language := some lr.language,
                  confidence_score := lr.confidence_score,
                  validation_method := some lr.validation_method,
                  block_type := some "log" }
            | none =>
              { vbInit block with confidence_score := block.confidence * 0.5 }

/-! ### Validator helper lemmas -/

theorem validateProgrammingLanguage_none (ts : String → String → Bool × ℕ)
    (code lang : String) (h : (ts code (langMap lang)).1 = false) :
    validateProgrammingLanguage ts code lang = none := by
  unfold validateProgrammingLanguage
  simp [h]

theorem validateStructuredData_none (jsonOk yamlOk xmlOk : String → Bool) (content : String)
    (hj : jsonOk content = false) (hy : yamlOk content = false)
    (hx : xmlOk content = false) :
    validateStructuredData jsonOk yamlOk xmlOk content = none := by
  unfold validateStructuredData
  simp [hj, hy, hx]

theorem detectProgrammingLanguage_invalid (ts : String → String → Bool × ℕ) (code : String)
    (hts : ∀ lang, (ts code lang).1 = false)
    (hsb : pyStartsWith code "#!" = false) :
    detectProgrammingLanguage ts code = ⟨false, none, 0, none⟩ := by
  have hv : ∀ lang, validateProgrammingLanguage ts code lang = none := fun lang =>
    validateProgrammingLanguage_none ts code lang (hts _)
  simp [detectProgrammingLanguage, candidateLangs, hv, hsb]

theorem vbStep1_none (ts : String → String → Bool × ℕ) (block : CandidateBlock)
    (h1 : ∀ h, block.language_hint = some h →
      validateProgrammingLanguage ts block.content h = none) :
    vbStep1 ts block = none := by
  unfold vbStep1
  cases hlh : block.language_hint with
  | none => rfl
  | some h => simp [h1 h hlh]

theorem validateProgrammingLanguage_eq (ts : String → String → Bool × ℕ)
    (code lang : String) (n : ℕ) (h : ts code (langMap lang) = (true, n)) :
    validateProgrammingLanguage ts code lang =
      some ⟨langMap lang,
            if check_balanced_brackets code
            then min 0.99 (0.95 + min 0.04 ((n : ℚ) / 1000))
            else min 0.99 (0.95 + min 0.04 ((n : ℚ) / 1000)) - 0.10, n⟩ := by
  simp [validateProgrammingLanguage, h]

/-! ### Claims about the Validator -/

/-- Claim C1 (corrected): `validate_block` consults the filename extension
hint BEFORE auto-detect.  When the fence hint is absent or fails and the
extension maps to a code language that the registry accepts, the block is
returned from the extension step with method `tree-sitter-context` and
confidence `min(0.99, conf + 0.15)`; auto-detect (method `tree-sitter-auto`,
applied with no confidence threshold) is reached only if the extension step
fails.  No `tree-sitter-auto-priority` method exists in the code. -/
theorem claim_C1_extension_precedes_autodetect (ts : String → String → Bool × ℕ)
    (jsonOk yamlOk xmlOk : String → Bool) (block : CandidateBlock)
    (filename : Option String) (e : String) (lr : LangResult)
    (h1 : ∀ h, block.language_hint = some h →
      validateProgrammingLanguage ts block.content h = none)
    (h2 : extensionHint filename = some e)
    (h3 : ¬ (e = "json" ∨ e = "xml" ∨ e = "yaml"))
    (h4 : validateProgrammingLanguage ts block.content e = some lr) :
    validateBlock ts jsonOk yamlOk xmlOk block filename =
      { vbInit block with
          valid := true, language := some lr.language, ast_nodes := some lr.ast_nodes,
          block_type := some "code", validation_method := some "tree-sitter-context",
          confidence_score := min 0.99 (lr.confidence_score + 0.15) } := by
  have hs1 : vbStep1 ts block = none := vbStep1_none ts block h1
  have hs2 : vbStep2 ts jsonOk yamlOk xmlOk block (extensionHint filename) =
      some { vbInit block with
               valid := true, language := some lr.language, ast_nodes := some lr.ast_nodes,
               block_type := some "code", validation_method := some "tree-sitter-context",
               confidence_score := min 0.99 (lr.confidence_score + 0.15) } := by
    unfold vbStep2
    rw [h2]
    simp [h3, h4]
  unfold validateBlock
  rw [hs1, hs2]

/-- A registry oracle accepting exactly the `java` and `python` grammars,
with 20 AST nodes (both `Main.java`'s extension language and auto-detect's
first candidate would accept the content). -/
def tsJavaPy : String → String → Bool × ℕ :=
  fun _ lang => (decide (lang = "java" ∨ lang = "python"), 20)

/-- A parse oracle that always fails (no JSON / YAML / XML parse). -/
def noParse : String → Bool := fun _ => false

/-- A candidate block with no fence hint. -/
def blockC1 : CandidateBlock :=
  { content := "class A { }", start_line := 0, end_line := 2,
    detection_method := "indentation", confidence := 0.85 }

unseal Rat.add Rat.mul Rat.ofScientific Rat.inv Rat.sub in
theorem claim_C1_witness :
    extensionHint (some "Main.java") = some "java" ∧
    validateProgrammingLanguage tsJavaPy blockC1.content "java" =
      some ⟨"java", 0.97, 20⟩ ∧
    validateBlock tsJavaPy noParse noParse noParse blockC1 (some "Main.java") =
      { vbInit blockC1 with
          valid := true, language := some "java", ast_nodes := some 20,
          block_type := some "code", validation_method := some "tree-sitter-context",
          confidence_score := min 0.99 ((0.97 : ℚ) + 0.15) } :=
  ⟨by decide, by decide,
   claim_C1_extension_precedes_autodetect tsJavaPy noParse noParse noParse blockC1
     (some "Main.java") "java" ⟨"java", 0.97, 20⟩
     (by intro h hh; exact absurd hh (by simp [blockC1]))
     (by decide) (by decide) (by decide)⟩

unseal Rat.add Rat.mul Rat.ofScientific Rat.inv Rat.sub in
/-- Claim C1 counterexample: the python grammar (auto-detect's first
candidate) accepts `blockC1.content` with confidence 0.97 > 0.75, yet
`validate_block` with filename `Main.java` returns the extension-derived
`java` label with method `tree-sitter-context`: the extension hint is
consulted before auto-detect and no `tree-sitter-auto-priority` method is
ever produced. -/
theorem claim_C1_counterexample :
    validateProgrammingLanguage tsJavaPy blockC1.content "python" =
      some ⟨"python", 0.97, 20⟩ ∧
    (0.75 : ℚ) < 0.97 ∧
    (validateBlock tsJavaPy noParse noParse noParse blockC1 (some "Main.java")).validation_method
      = some "tree-sitter-context" ∧
    (validateBlock tsJavaPy noParse noParse noParse blockC1 (some "Main.java")).validation_method
      ≠ some "tree-sitter-auto-priority" ∧
    (validateBlock tsJavaPy noParse noParse noParse blockC1 (some "Main.java")).language
      = some "java" := by decide

/-- Claim C3 (corrected): for code accepted by the grammar with `n` AST
nodes the code confidence is `min(0.99, 0.95 + min(0.04, n/1000))`, minus
`0.10` when `balanced_brackets` fails — not the spec's
`min(0.99, 0.90 + min(0.09, n/500))` and `−0.15`.  The result always lies
in `[0.85, 0.99]`, so no clamping to `[0, 1]` ever takes place. -/
theorem claim_C3_code_confidence (ts : String → String → Bool × ℕ)
    (code lang : String) (n : ℕ) (h : ts code (langMap lang) = (true, n)) :
    validateProgrammingLanguage ts code lang =
      some ⟨langMap lang,
            (if check_balanced_brackets code
             then min 0.99 (0.95 + min 0.04 ((n : ℚ) / 1000))
             else min 0.99 (0.95 + min 0.04 ((n : ℚ) / 1000)) - 0.10), n⟩ ∧
    (0.85 : ℚ) ≤ (if check_balanced_brackets code
             then min 0.99 (0.95 + min 0.04 ((n : ℚ) / 1000))
             else min 0.99 (0.95 + min 0.04 ((n : ℚ) / 1000)) - 0.10) ∧
    (if check_balanced_brackets code
             then min 0.99 (0.95 + min 0.04 ((n : ℚ) / 1000))
             else min 0.99 (0.95 + min 0.04 ((n : ℚ) / 1000)) - 0.10) ≤ (0.99 : ℚ) := by
  have hb0 : (0 : ℚ) ≤ min 0.04 ((n : ℚ) / 1000) :=
    le_min (by norm_num) (by positivity)
  have hup : min (0.99 : ℚ) (0.95 + min 0.04 ((n : ℚ) / 1000)) ≤ 0.99 := min_le_left _ _
  have hlo : (0.95 : ℚ) ≤ min (0.99 : ℚ) (0.95 + min 0.04 ((n : ℚ) / 1000)) :=
    le_min (by norm_num) (by linarith)
  refine ⟨validateProgrammingLanguage_eq ts code lang n h, ?_, ?_⟩
  · cases check_balanced_brackets code
    · rw [if_neg (by simp)]; linarith
    · rw [if_pos rfl]; linarith
  · cases check_balanced_brackets code
    · rw [if_neg (by simp)]; linarith
    · rw [if_pos rfl]; linarith

/-- A registry oracle accepting everything with zero AST nodes. -/
def tsAccept0 : String → String → Bool × ℕ := fun _ _ => (true, 0)

unseal Rat.add Rat.mul Rat.ofScientific Rat.inv Rat.sub in
theorem claim_C3_witness :
    tsAccept0 "abc" (langMap "python") = (true, 0) ∧
    validateProgrammingLanguage tsAccept0 "abc" "python" =
      some ⟨langMap "python",
            (if check_balanced_brackets "abc"
             then min 0.99 (0.95 + min 0.04 ((0 : ℚ) / 1000))
             else min 0.99 (0.95 + min 0.04 ((0 : ℚ) / 1000)) - 0.10), 0⟩ :=
  ⟨rfl, (claim_C3_code_confidence tsAccept0 "abc" "python" 0 rfl).1⟩

/-- The code-confidence formula exactly as claim C3 words it: base 0.90,
bonus `min(0.09, n/500)`, cap 0.99, −0.15 when unbalanced, clamped to
`[0, 1]` (for refutation only). -/
def specCodeConfidence (n : ℕ) (balanced : Bool) : ℚ :=
  let conf := min 0.99 (0.90 + min 0.09 ((n : ℚ) / 500))
  let conf := if balanced then conf else conf - 0.15
  max 0 (min 1 conf)

unseal Rat.add Rat.mul Rat.ofScientific Rat.inv Rat.sub in
/-- Claim C3 counterexample: balanced code accepted with 0 AST nodes gets
confidence 0.95 from the code, while the claim's formula yields 0.90. -/
theorem claim_C3_counterexample :
    validateProgrammingLanguage tsAccept0 "abc" "python" = some ⟨"python", 0.95, 0⟩ ∧
    specCodeConfidence 0 true = 0.90 ∧
    ¬ ((0.95 : ℚ) = 0.90) := by decide

/-- Claim C4 (corrected): when strict JSON parsing fails and YAML safe-load
succeeds, `_validate_structured_data` classifies the content as
structured/yaml with confidence 0.97 unconditionally — there is no
"contains a colon and a newline" guard, and the confidence is 0.97, not
0.95. -/
theorem claim_C4_yaml_no_guard (jsonOk yamlOk xmlOk : String → Bool) (content : String)
    (hj : jsonOk content = false) (hy : yamlOk content = true) :
    validateStructuredData jsonOk yamlOk xmlOk content = some ⟨"yaml", 0.97, "schema"⟩ := by
  unfold validateStructuredData
  simp [hj, hy]

/-- A parse oracle that always succeeds (as `yaml.safe_load` does on plain
scalars such as `"hello"`). -/
def yesParse : String → Bool := fun _ => true

theorem claim_C4_witness :
    noParse "hello" = false ∧ yesParse "hello" = true ∧
    validateStructuredData noParse yesParse yesParse "hello" =
      some ⟨"yaml", 0.97, "schema"⟩ :=
  ⟨rfl, rfl, claim_C4_yaml_no_guard noParse yesParse yesParse "hello" rfl rfl⟩

unseal Rat.add Rat.mul Rat.ofScientific Rat.inv Rat.sub in
/-- Claim C4 counterexample: `"hello"` fails `json.loads` and is accepted by
`yaml.safe_load` (the oracles are instantiated accordingly), contains
neither a colon nor a newline, yet is classified structured/yaml — with
confidence 0.97, not 0.95. -/
theorem claim_C4_counterexample :
    validateStructuredData noParse yesParse yesParse "hello" =
      some ⟨"yaml", 0.97, "schema"⟩ ∧
    ¬ (':' ∈ "hello".data) ∧ ¬ ('\n' ∈ "hello".data) ∧
    ¬ ((0.97 : ℚ) = 0.95) := by decide

/-- Claim C6 (corrected): when every classification step fails,
`validate_block` returns the block with `confidence_score = 0.5 ×
block.confidence` and content and line span unchanged — but `block_type`
is left as Python `None` (`none`), not the label `"unknown"` (no
`"unknown"` label exists anywhere in the code). -/
theorem claim_C6_total_failure (ts : String → String → Bool × ℕ)
    (jsonOk yamlOk xmlOk : String → Bool) (block : CandidateBlock)
    (filename : Option String)
    (hts : ∀ lang, (ts block.content lang).1 = false)
    (hsb : pyStartsWith block.content "#!" = false)
    (hj : jsonOk block.content = false) (hy : yamlOk block.content = false)
    (hx : xmlOk block.content = false)
    (hcfg : validateConfig block.content = none)
    (hlg : validateLog block.content = none) :
    validateBlock ts jsonOk yamlOk xmlOk block filename =
      { vbInit block with confidence_score := block.confidence * 0.5 } := by
  have hv : ∀ lang, validateProgrammingLanguage ts block.content lang = none := fun lang =>
    validateProgrammingLanguage_none ts block.content lang (hts _)
  have hsd : validateStructuredData jsonOk yamlOk xmlOk block.content = none :=
    validateStructuredData_none jsonOk yamlOk xmlOk block.content hj hy hx
  have hs1 : vbStep1 ts block = none := vbStep1_none ts block (fun h _ => hv h)
  have hs2 : vbStep2 ts jsonOk yamlOk xmlOk block (extensionHint filename) = none := by
    unfold vbStep2
    cases hext : extensionHint filename with
    | none => rfl
    | some e =>
      by_cases he : e = "json" ∨ e = "xml" ∨ e = "yaml"
      · simp [he, hsd]
      · simp [he, hv]
  have hd : detectProgrammingLanguage ts block.content = ⟨false, none, 0, none⟩ :=
    detectProgrammingLanguage_invalid ts block.content hts hsb
  unfold validateBlock
  rw [hs1, hs2, hd, hsd, hcfg, hlg]
  rfl

/-- A registry oracle rejecting everything. -/
def tsReject : String → String → Bool × ℕ := fun _ _ => (false, 0)

/-- Three lines of prose: no shebang, no structured parse, fewer than two
config-bank hits, no log timestamp or severity. -/
def blockC6 : CandidateBlock :=
  { content := "hello world\nfoo bar\nbaz qux", start_line := 4, end_line := 6,
    detection_method := "density", confidence := 0.4 }

unseal Rat.add Rat.mul Rat.ofScientific Rat.inv Rat.sub in
theorem claim_C6_witness :
    validateConfig blockC6.content = none ∧
    validateLog blockC6.content = none ∧
    validateBlock tsReject noParse noParse noParse blockC6 none =
      { vbInit blockC6 with confidence_score := blockC6.confidence * 0.5 } :=
  ⟨by decide, by decide,
   claim_C6_total_failure tsReject noParse noParse noParse blockC6 none
     (fun _ => rfl) (by decide) rfl rfl rfl (by decide) (by decide)⟩

unseal Rat.add Rat.mul Rat.ofScientific Rat.inv Rat.sub in
/-- Claim C6 counterexample: on total classification failure the returned
`block_type` is `none` (Python `None`), not `some "unknown"`; the halved
confidence and unchanged content hold. -/
theorem claim_C6_counterexample :
    (validateBlock tsReject noParse noParse noParse blockC6 none).block_type = none ∧
    (validateBlock tsReject noParse noParse noParse blockC6 none).block_type
      ≠ some "unknown" ∧
    (validateBlock tsReject noParse noParse noParse blockC6 none).confidence_score
      = 0.4 * 0.5 ∧
    (validateBlock tsReject noParse noParse noParse blockC6 none).content
      = blockC6.content ∧
    (validateBlock tsReject noParse noParse noParse blockC6 none).start_line
      = blockC6.start_line ∧
    (validateBlock tsReject noParse noParse noParse blockC6 none).end_line
      = blockC6.end_line := by decide

/-- Claim C7 (corrected): with at least 2 distinct Cisco-bank regex hits the
configuration step classifies the content as config/cisco_ios — checked
before the Nginx bank — but the confidence is
`min(0.85, 0.70 + 0.05 × matches)`, which equals 0.85 only from 3 matches
on; with exactly 2 matches it is 0.80. -/
theorem claim_C7_cisco_before_nginx (content : String)
    (h : 2 ≤ ciscoMatchCount content) :
    validateConfig content =
      some ⟨"cisco_ios", min 0.85 (0.70 + (ciscoMatchCount content : ℚ) * 0.05),
            "pattern_matching", ciscoMatchCount content⟩ := by
  unfold validateConfig
  simp only [if_pos h]

unseal Rat.add Rat.mul Rat.ofScientific Rat.inv Rat.sub in
theorem claim_C7_witness :
    2 ≤ ciscoMatchCount "vlan 10\ninterface eth0\nrouter bgp 5" ∧
    validateConfig "vlan 10\ninterface eth0\nrouter bgp 5" =
      some ⟨"cisco_ios",
            min 0.85 (0.70 + (ciscoMatchCount "vlan 10\ninterface eth0\nrouter bgp 5" : ℚ)
              * 0.05),
            "pattern_matching", ciscoMatchCount "vlan 10\ninterface eth0\nrouter bgp 5"⟩ :=
  ⟨by decide, claim_C7_cisco_before_nginx "vlan 10\ninterface eth0\nrouter bgp 5" (by decide)⟩

unseal Rat.add Rat.mul Rat.ofScientific Rat.inv Rat.sub in
/-- Claim C7 counterexample: `"vlan 10\ninterface eth0"` matches exactly 2
distinct Cisco patterns and is classified config/cisco_ios with confidence
0.80, not 0.85. -/
theorem claim_C7_counterexample :
    ciscoMatchCount "vlan 10\ninterface eth0" = 2 ∧
    validateConfig "vlan 10\ninterface eth0" =
      some ⟨"cisco_ios", 0.80, "pattern_matching", 2⟩ ∧
    ¬ ((0.80 : ℚ) = 0.85) := by decide

/-! ### Precision Filter (`filter.py`) -/

/-- `PrecisionFilter.PROSE_INDICATORS`. -/
def PROSE_INDICATORS : List String :=
  ["the", "a", "an", "is", "are", "was", "were", "and", "or",
   "but", "however", "therefore", "this", "that", "these", "those"]

/-- The record `batch_filter` consumes and returns: a `validate_block`
result dict together with the keys the filter may add (absent before
filtering). -/
structure FilterRecord where
  content : String
  start_line : ℕ
  end_line : ℕ
  detection_method : String
  block_type : Option String
  language : Option String
  confidence_score : ℚ
  validation_method : Option String
  valid : Bool
  ast_nodes : Option ℕ
  filter_passed : Option Bool := none
  rejection_reason : Option String := none
  filtered_by : Option String := none
deriving DecidableEq, Repr

/-- The return dict of `should_accept_block` (Python formats offending
values into the reason strings; only their identifying text is kept). -/
structure FilterDecision where
  accept : Bool
  reason : String
  filtered_by : Option String
deriving DecidableEq, Repr

/-- `PrecisionFilter.INLINE_VAR_PATTERN`, `^\s*\w+\s*=\s*.+$`.  It is used
with `re.match` (anchored at the start); the `$` anchor is modelled as
end-of-string, which agrees with Python on the newline-free lines the
filter applies it to. -/
def inlineVarRE : RE :=
  RE.seq (RE.starC pyWs) (RE.seq (RE.plusC wordChar) (RE.seq (RE.starC pyWs)
    (RE.seq (reStr "=") (RE.seq (RE.starC pyWs)
      (RE.seq (RE.plusC (fun c => c != '\n')) RE.endA)))))

/-- Python `bool(re.match(pattern, s))`. -/
def reMatchStart (re : RE) (s : String) : Bool :=
  (matchAt (2 * s.length + 100) re none s.data).isSome

/-- `PrecisionFilter._is_inline_variable`. -/
def isInlineVariable (content : String) : Bool :=
  let ls := ((linesOf content).filter (fun l => pyStrip l ≠ "")).map pyStrip
  if ls.length = 1 then reMatchStart inlineVarRE (ls.getD 0 "")
  else if ls.length ≤ 3 then
    decide ((ls.filter (fun l => reMatchStart inlineVarRE l)).length = ls.length)
  else false

/-- The bracket scan of `_check_syntax_integrity` (`filter.py` duplicates
the stack-based scan). -/
def filterBracketScan : List Char → List Char → Bool
  | [], stack => stack.isEmpty
  | c :: rest, stack =>
    if c = '(' || c = '[' || c = '{' then filterBracketScan rest (c :: stack)
    else if c = ')' || c = ']' || c = '}' then
      match stack with
      | [] => false
      | o :: stack' =>
        if (o = '(' ∧ c = ')') ∨ (o = '[' ∧ c = ']') ∨ (o = '{' ∧ c = '}') then
          filterBracketScan rest stack'
        else false
    else filterBracketScan rest stack

/-- `PrecisionFilter._check_syntax_integrity` reduced to its validity bit:
balanced brackets and an even number of single and of double quotes. -/
def syntaxIntegrityOk (content : String) : Bool :=
  filterBracketScan content.data []
    && decide (content.data.count '\'' % 2 = 0)
    && decide (content.data.count '"' % 2 = 0)

/-- `re.findall(r'\b\w+\b', s)`: the maximal word-character runs. -/
def pyWords (s : String) : List String :=
  ((s.data.splitOnP (fun c => ! wordChar c)).filter (fun w => w ≠ [])).map String.mk

/-- The sentence-boundary pattern `\.\s+[A-Z]`. -/
def sentenceRE : RE :=
  RE.seq (reStr ".") (RE.seq (RE.plusC pyWs) (RE.cls (fun c => 'A' ≤ c && c ≤ 'Z')))

/-- `PrecisionFilter._looks_like_prose`. -/
def looksLikeProse (content : String) : Bool :=
  let words := pyWords (pyLower content)
  if words = [] then false
  else
    let prose_word_count := (words.filter (fun w => w ∈ PROSE_INDICATORS)).length
    if (prose_word_count : ℚ) / words.length > 0.20 then true
    else decide (2 < reCount sentenceRE content)

/-- `PrecisionFilter._check_context_density` reduced to its sufficiency
bit. -/
def contextDensityOk (content : String) : Bool :=
  let tech_char_count := (content.data.filter (fun c => c ∈ "{}[]()<>;:=".data)).length
  if content.length = 0 then false
  else decide (¬ ((tech_char_count : ℚ) / content.length < 0.05))

/-- `PrecisionFilter._check_indentation`. -/
def indentationOk (content : String) : Bool :=
  let ls := linesOf content
  let has_tabs := ls.any (fun l => '\t' ∈ l.data)
  let has_spaces := ls.any (fun l => pyStartsWith l " ")
  ! (has_tabs && has_spaces)

/-- `PrecisionFilter._looks_like_python`. -/
def looksLikePython (content : String) : Bool :=
  let keywords : List String :=
    ["def", "class", "import", "from", "if", "elif", "else", "try", "except"]
  (pyWords content).any (fun w => w ∈ keywords) && (':' ∈ content.data)

/-- `PrecisionFilter.should_accept_block`: rules 1–7 in order, first
rejection wins. -/
def shouldAcceptBlock (r : FilterRecord) : FilterDecision :=
  let content := r.content
  let confidence := r.confidence_score
  let block_type := r.block_type
  let language := r.language
  if confidence < 0.50 then
    ⟨false, "Low confidence", some "confidence_threshold"⟩
  else
    let lines := content.data.count '\n' + 1
    let char_count := (pyStrip content).length
    if lines < 3 then ⟨false, "Too few lines", some "minimum_lines"⟩
    else if char_count < 30 then ⟨false, "Too short", some "minimum_chars"⟩
    else if block_type = some "code" ∧ lines < 5 ∧ isInlineVariable content then
      ⟨false, "Inline variable assignment without context", some "inline_variable"⟩
    else if block_type = some "code" ∧ ¬ syntaxIntegrityOk content then
      ⟨false, "Syntax integrity failure", some "syntax_integrity"⟩
    else if block_type = some "code" ∧ looksLikeProse content then
      ⟨false, "Content appears to be natural language prose", some "prose_detection"⟩
    else if confidence < 0.75 ∧ ¬ contextDensityOk content then
      ⟨false, "Low technical density", some "context_density"⟩
    else if (language = some "python" ∨ looksLikePython content) ∧ ¬ indentationOk content then
      ⟨false, "Invalid or mixed indentation", some "indentation_check"⟩
    else ⟨true, "Passed all precision filters", none⟩

/-- `PrecisionFilter.batch_filter`'s return value: the accepted records in
input order, each with `filter_passed = True` (the rejection annotations
are made on dicts that are not part of the returned list). -/
def batchFilter (results : List FilterRecord) : List FilterRecord :=
  results.filterMap (fun r =>
    if (shouldAcceptBlock r).accept then some { r with filter_passed := some true }
    else none)

/-- The filter decision reads only `content`, `confidence_score`,
`block_type` and `language`; setting `filter_passed` does not change it. -/
theorem shouldAcceptBlock_filter_passed (r : FilterRecord) :
    shouldAcceptBlock { r with filter_passed := some true } = shouldAcceptBlock r := by
  cases r
  rfl

/-! ### Claim about the Precision Filter -/

/-- Claim C9 (confirmed): `batch_filter` is a no-op on its own output —
filtering an already-accepted list returns the same records in the same
order (in particular every block is accepted again). -/
theorem claim_C9_batch_filter_idempotent (results : List FilterRecord) :
    batchFilter (batchFilter results) = batchFilter results := by
  induction results with
  | nil => rfl
  | cons r rs ih =>
    show batchFilter (batchFilter (r :: rs)) = batchFilter (r :: rs)
    unfold batchFilter
    rw [List.filterMap_cons]
    cases h : (shouldAcceptBlock r).accept
    · rw [if_neg (by simp [h])]
      exact ih
    · rw [if_pos (by simp [h]), List.filterMap_cons,
        if_pos (by simp [shouldAcceptBlock_filter_passed, h])]
      have hidem : ({ { r with filter_passed := some true } with
          filter_passed := some true } : FilterRecord) =
          { r with filter_passed := some true } := rfl
      rw [hidem]
      exact congrArg _ ih

/-! ### Concrete inputs used by witnesses and counterexamples -/

/-- A document with a 3-line low-density indented run (lines 0–2, the third
line being an indented fence opener) followed by a fenced block whose
interior (lines 3–5) is claimed by the markdown strategy. -/
def textC5 : String := "    aaaa\n    bbbb\n    ```python\n    x\n    y\n    z\n```"

/-- The indentation candidate that `segment 3 textC5` emits for lines 0–2. -/
def blockC5 : CandidateBlock :=
  { content := "    aaaa\n    bbbb\n    ```python", start_line := 0, end_line := 2,
    detection_method := "indentation", confidence := 0.75 }

/-- A 10-line document whose first five lines are empty and whose technical
content is confined to its last five lines. -/
def textC10 : String :=
  "\n\n\n\n\nif (x) { y = 1; }\nif (x) { y = 1; }\nif (x) { y = 1; }\nif (x) { y = 1; }\nif (x) { y = 1; }"

/-- The density candidate that `segment 3 textC10` emits. -/
def blockC10 : CandidateBlock :=
  { content := "\n\n\n\nif (x) { y = 1; }\nif (x) { y = 1; }\nif (x) { y = 1; }\nif (x) { y = 1; }\nif (x) { y = 1; }",
    start_line := 1, end_line := 9, detection_method := "density",
    confidence := 17/70 }

/-- A fenced document used as a witness for the content-slice invariant. -/
def textC8 : String := "```py\na=(1)\nb=[2]\nc=3\n```"

/-- The markdown candidate that `segment 3 textC8` emits. -/
def blockC8 : CandidateBlock :=
  { content := "a=(1)\nb=[2]\nc=3", start_line := 1, end_line := 3,
    detection_method := "markdown", confidence := 0.95, language_hint := some "py" }

/-! ### Claims about the Segmenter -/

/-- Claim C2 (confirmed): for every input text, the list returned by
`Segmenter.segment` is sorted by `start_line` ascending and the
`[start_line, end_line]` ranges of its blocks are pairwise disjoint. -/
theorem claim_C2_segment_sorted_disjoint (minL : ℕ) (text : String) :
    (segment minL text).Pairwise startLE ∧
    (segment minL text).Pairwise
      (fun a b => Disjoint (Finset.Icc a.start_line a.end_line)
                           (Finset.Icc b.start_line b.end_line)) := by
  constructor
  · exact deduplicateBlocks_sorted _
  · exact deduplicateBlocks_pairwise_disjoint _

/-- Claim C8 (confirmed): every candidate block emitted by `segment` has
`content` equal to the input's lines `start_line` through `end_line`
(inclusive), joined by newlines with no trailing newline. -/
theorem claim_C8_content_is_line_slice (minL : ℕ) (text : String) (b : CandidateBlock)
    (hb : b ∈ segment minL text) :
    b.content = String.intercalate "\n"
      (((linesOf text).drop b.start_line).take (b.end_line + 1 - b.start_line)) := by
  rcases mem_segmentLines hb with h | h | h
  · exact (extractMarkdown_sound h).2.2
  · exact (extractIndented_sound h).2.1
  · exact (extractDensityLoopF_sound _ _ _ _ _ b h).2.2

unseal Rat.add Rat.mul Rat.ofScientific Rat.inv Rat.sub in
theorem claim_C8_witness :
    blockC8 ∈ segment 3 textC8 ∧
    blockC8.content = String.intercalate "\n"
      (((linesOf textC8).drop blockC8.start_line).take
        (blockC8.end_line + 1 - blockC8.start_line)) :=
  ⟨by decide, claim_C8_content_is_line_slice 3 textC8 blockC8 (by decide)⟩

/-- Claim C5 (corrected): every candidate emitted by the indentation strategy
either carries confidence 0.85 and passes the density/complexity test
(runs terminated by an unclaimed, non-indented or blank line), or carries
confidence 0.75 (runs cut off by an already-claimed line, emitted with no
density/complexity test at all). -/
theorem claim_C5_indentation_blocks (minL : ℕ) (text : String) (b : CandidateBlock)
    (hb : b ∈ segment minL text) (hm : b.detection_method = "indentation") :
    (b.confidence = 0.85 ∧ (techDensity b.content > 0.15 ∨ 2 ≤ blockComplexity b.content)) ∨
    b.confidence = 0.75 := by
  rcases mem_segmentLines hb with h | h | h
  · rw [(extractMarkdown_sound h).1] at hm; exact absurd hm (by decide)
  · rcases (extractIndented_sound h).2.2 with h75 | h85
    · exact Or.inr h75
    · exact Or.inl h85
  · rw [(extractDensityLoopF_sound _ _ _ _ _ b h).1] at hm; exact absurd hm (by decide)

unseal Rat.add Rat.mul Rat.ofScientific Rat.inv Rat.sub in
theorem claim_C5_witness :
    blockC5 ∈ segment 3 textC5 ∧ blockC5.detection_method = "indentation" ∧
    ((blockC5.confidence = 0.85 ∧
      (techDensity blockC5.content > 0.15 ∨ 2 ≤ blockComplexity blockC5.content)) ∨
     blockC5.confidence = 0.75) :=
  ⟨by decide, rfl, claim_C5_indentation_blocks 3 textC5 blockC5 (by decide) rfl⟩

unseal Rat.add Rat.mul Rat.ofScientific Rat.inv Rat.sub in
/-- Claim C5 counterexample: `segment 3 textC5` emits the 3-line indented run
of lines 0–2 even though its technical density is ≤ 0.15 and its complexity
score is < 2 (the run was cut off by a claimed line), and its confidence is
0.75, not 0.85. -/
theorem claim_C5_counterexample :
    blockC5 ∈ segment 3 textC5 ∧
    ¬ (techDensity blockC5.content > 0.15 ∨ 2 ≤ blockComplexity blockC5.content) ∧
    blockC5.confidence = 0.75 ∧ blockC5.confidence ≠ 0.85 := by decide

/-- Claim C10 (corrected): the density sliding-window strategy only considers
window start positions strictly below (number of lines − 5): every
density-detected candidate satisfies `start_line + 5 < number of lines`.
(The claimed consequence — that technical content confined to the last five
lines yields no density candidate — fails; see the counterexample.) -/
theorem claim_C10_density_window_bound (minL : ℕ) (text : String) (b : CandidateBlock)
    (hb : b ∈ segment minL text) (hm : b.detection_method = "density") :
    b.start_line + 5 < (linesOf text).length := by
  rcases mem_segmentLines hb with h | h | h
  · rw [(extractMarkdown_sound h).1] at hm; exact absurd hm (by decide)
  · rw [(extractIndented_sound h).1] at hm; exact absurd hm (by decide)
  · exact (extractDensityLoopF_sound _ _ _ _ _ b h).2.1

unseal Rat.add Rat.mul Rat.ofScientific Rat.inv Rat.sub in
theorem claim_C10_witness :
    blockC10 ∈ segment 3 textC10 ∧ blockC10.detection_method = "density" ∧
    blockC10.start_line + 5 < (linesOf textC10).length :=
  ⟨by decide, rfl, claim_C10_density_window_bound 3 textC10 blockC10 (by decide) rfl⟩

unseal Rat.add Rat.mul Rat.ofScientific Rat.inv Rat.sub in
/-- Claim C10 counterexample: in `textC10` the first five lines are empty, so
all (unclaimed) technical content lies within the last five lines; the
density strategy nevertheless emits a candidate, because the window starting
at line 1 overlaps four of the technical lines and passes the threshold. -/
theorem claim_C10_counterexample :
    (linesOf textC10).take 5 = ["", "", "", "", ""] ∧
    (linesOf textC10).length = 10 ∧
    blockC10 ∈ segment 3 textC10 ∧
    blockC10.detection_method = "density" := by decide

end Sentinel
